import Mathlib

set_option maxHeartbeats 1000000

/- Shallow embedding of the findAsDerivative repository
   (src/checkExtrinsic.js and src/findAsDerivative.js).

   Modelling conventions:
   - A byte is a `Nat`; an AccountId32 is its raw 32-byte `List Nat`.
   - The external blake2-256 hash (`blake2AsU8a(_, 256)` from
     @polkadot/util-crypto) is an external collaborator of the core, so every
     definition that uses it is parameterised by a function
     `hash256 : List Nat → List Nat`.
   - `registry.createType('AccountId32', x)` succeeds exactly on 32-byte
     account data and is otherwise a throw; on success it is the identity on
     the raw bytes.
   - JavaScript exceptions are modelled by a `Bool` "threw" flag paired with
     the state reached so far (JS mutations performed before a throw persist),
     or by `Option` for the pure account deriver.
   - The mutable objects of the scan (`counters`, the global `debugCounters`,
     and the `writeDetail` sink) are threaded as one explicit `ScanState`. -/

mutual

/-- A decoded call, JS shape `{ section, method, args }`:
`checkExtrinsic.js` reads `callMethod.section`, `callMethod.method` and the
arguments array.  The first string is the pallet section (`section` is a Lean
keyword, so the field is called `sect`), the second the method name. -/
inductive Call where
  | mk : String → String → List Arg → Call

/-- One element of a call's `args` array: a numeric codec (has `toNumber`),
a nested call (has `method`/`args`), a call vector (has `toArray` /
`Array.isArray`), or any other opaque codec. -/
inductive Arg where
  | num : Nat → Arg
  | callArg : Call → Arg
  | seq : List Call → Arg
  | raw : String → Arg

end

def Call.sect : Call → String
  | Call.mk s _ _ => s

def Call.method : Call → String
  | Call.mk _ m _ => m

def Call.args : Call → List Arg
  | Call.mk _ _ a => a

/-- Whether an argument is a call sequence (array-like: `toArray` present or
`Array.isArray` true in the JS duck-typing probe). -/
def Arg.isSeq : Arg → Bool
  | Arg.seq _ => true
  | _ => false

/-- `const counters = { total: 0, unique: new Set() }` (checkExtrinsic.js
line 271). -/
structure ScanCounters where
  total : Nat
  unique : List (List Nat)

/-- The process-wide `debugCounters` object (checkExtrinsic.js lines 52-56). -/
structure DebugCounters where
  totalExtrinsics : Nat
  utilityExtrinsics : Nat
  utilityMethods : List (String × Nat)

/-- The object passed to `writeDetail` (checkExtrinsic.js lines 79-87). -/
structure MatchRecord where
  block : Nat
  extrinsicIndex : Nat
  signer : List Nat
  derivativeIndex : Nat
  derivedAccount : List Nat
  innerCall : String
  innerCallArgs : List Arg

/-- The whole mutable state of a scan: the match counters, the global debug
counters and the ordered list of records written to the detail sink. -/
structure ScanState where
  counters : ScanCounters
  debug : DebugCounters
  records : List MatchRecord

/-- `DERIVATION_PREFIX = stringToU8a('modlpy/utilisuba')`
(checkExtrinsic.js line 11; the same constant is inlined in
findAsDerivative.js line 160). -/
def derivationPrefixBytes : List Nat := "modlpy/utilisuba".data.map Char.toNat

/-- `deriveAccountCorrect` (checkExtrinsic.js lines 19-27): AccountId bytes of
the signer, one byte `derivativeIndex & 0xff`, concatenated after the fixed
prefix and hashed with blake2-256.  `none` models the throw of
`registry.createType('AccountId32', signer)` on a non-32-byte account
(`InvalidAccountFormat`). -/
def deriveAccountCorrect (hash256 : List Nat → List Nat) (signer : List Nat)
    (derivativeIndex : Nat) : Option (List Nat) :=
  if signer.length = 32 then
    some (hash256 (derivationPrefixBytes ++ signer ++ [derivativeIndex &&& 255]))
  else none

/-- The identical inline derivation of `checkAccountDerivatives`
(findAsDerivative.js lines 160-165). -/
def checkAccountDerivativesDerive (hash256 : List Nat → List Nat)
    (account : List Nat) (i : Nat) : Option (List Nat) :=
  if account.length = 32 then
    some (hash256 (derivationPrefixBytes ++ account ++ [i &&& 255]))
  else none

/-- JS `Set.prototype.add`: insertion-ordered, ignores duplicates. -/
def addUnique (l : List (List Nat)) (x : List Nat) : List (List Nat) :=
  if x ∈ l then l else l ++ [x]

/-- `debugCounters.utilityMethods[m] = (debugCounters.utilityMethods[m] || 0) + 1`
(checkExtrinsic.js line 62). -/
def bumpCount : List (String × Nat) → String → List (String × Nat)
  | [], k => [(k, 1)]
  | (k', v) :: rest, k =>
    if k' = k then (k', v + 1) :: rest else (k', v) :: bumpCount rest k

mutual

/-- `checkAsDerivative` (checkExtrinsic.js lines 58-123).  The returned `Bool`
is true when the JS code throws; the state reached before the throw is kept,
since the JS mutations persist.  Throw points, in source order:
`callArgs[0].toNumber()` on a non-numeric or missing argument,
`deriveAccountCorrect` on an invalid signer, the `writeDetail` record build
(`innerCall.method.section`) when `callArgs[1]` is missing or not a call, and
`callsVec.toArray` probing when a batch has no first argument. -/
def checkAsDerivative (hash256 : List Nat → List Nat) (call : Call)
    (blockNumber extrinsicIndex : Nat) (signer : List Nat) (depth : Nat)
    (s : ScanState) : ScanState × Bool :=
  match call with
  | Call.mk sect method args =>
    -- lines 60-63: depth-0 tally of utility method names in debugCounters
    let s1 : ScanState :=
      if depth = 0 ∧ sect = "utility" then
        { s with debug :=
          { s.debug with utilityMethods := bumpCount s.debug.utilityMethods method } }
      else s
    if sect = "utility" ∧ method = "asDerivative" then
      match args with
      | Arg.num derivativeIndex :: restArgs =>
        match deriveAccountCorrect hash256 signer derivativeIndex with
        | some derivedAccount =>
          -- lines 71-72: counters mutate before writeDetail runs
          let s2 := { s1 with counters :=
            { total := s1.counters.total + 1,
              unique := addUnique s1.counters.unique derivedAccount } }
          match restArgs with
          | Arg.callArg innerCall :: _ =>
            ({ s2 with records := s2.records ++
              [{ block := blockNumber, extrinsicIndex := extrinsicIndex,
                 signer := signer, derivativeIndex := derivativeIndex,
                 derivedAccount := derivedAccount,
                 innerCall := innerCall.sect ++ "." ++ innerCall.method,
                 innerCallArgs := innerCall.args }] }, false)
          | _ => (s2, true)
        | none => (s1, true)
      | _ => (s1, true)
    else if sect = "utility" ∧ (method = "batch" ∨ method = "batchAll") then
      match args with
      | [] => (s1, true)
      | Arg.seq cs :: _ =>
        checkNestedCalls hash256 cs blockNumber extrinsicIndex signer (depth + 1) s1
      | _ :: _ => (s1, false)
    else (s1, false)

/-- The `callsArr.forEach` loop of the batch branch (checkExtrinsic.js lines
107-121): nested calls in array order; a throw aborts the remaining
iterations. -/
def checkNestedCalls (hash256 : List Nat → List Nat) (cs : List Call)
    (blockNumber extrinsicIndex : Nat) (signer : List Nat) (depth : Nat)
    (s : ScanState) : ScanState × Bool :=
  match cs with
  | [] => (s, false)
  | c :: rest =>
    match checkAsDerivative hash256 c blockNumber extrinsicIndex signer depth s with
    | (s', true) => (s', true)
    | (s', false) =>
      checkNestedCalls hash256 rest blockNumber extrinsicIndex signer depth s'

end

/-- One decoded extrinsic as the scanner reads it: an optional signer
(`ex.signer`, absent on unsigned extrinsics) and the top-level call
(`ex.method`, whose `args` the scanner passes on). -/
structure Extrinsic where
  signer : Option (List Nat)
  method : Call

/-- The body of `extrinsics.forEach` in `main` (checkExtrinsic.js lines
298-324): count the extrinsic, skip it when unsigned, skip it (after counting
utility extrinsics) when its section is not `utility`, otherwise run the
matcher at depth 0. -/
def scanExtrinsic (hash256 : List Nat → List Nat) (blockNumber idx : Nat)
    (ex : Extrinsic) (s : ScanState) : ScanState × Bool :=
  let s1 := { s with debug :=
    { s.debug with totalExtrinsics := s.debug.totalExtrinsics + 1 } }
  match ex.signer with
  | none => (s1, false)
  | some signer =>
    if ex.method.sect = "utility" then
      let s2 := { s1 with debug :=
        { s1.debug with utilityExtrinsics := s1.debug.utilityExtrinsics + 1 } }
      checkAsDerivative hash256 ex.method blockNumber idx signer 0 s2
    else (s1, false)

/-- `extrinsics.forEach((ex, idx) => ...)`: extrinsics in listed order, the
index counting from `idx0`; a throw aborts the rest of the block. -/
def scanExtrinsicsFrom (hash256 : List Nat → List Nat) (blockNumber : Nat) :
    List Extrinsic → Nat → ScanState → ScanState × Bool
  | [], _, s => (s, false)
  | ex :: rest, idx, s =>
    match scanExtrinsic hash256 blockNumber idx ex s with
    | (s', true) => (s', true)
    | (s', false) => scanExtrinsicsFrom hash256 blockNumber rest (idx + 1) s'

/-- The per-batch block loop (checkExtrinsic.js lines 294-326): blocks of one
batch in order; a throw aborts the remaining blocks of the batch.  `chain`
abstracts the external `getBlockHash`/`getBlock` round trip. -/
def scanBlocksInBatch (hash256 : List Nat → List Nat)
    (chain : Nat → List Extrinsic) : List Nat → ScanState → ScanState × Bool
  | [], s => (s, false)
  | n :: rest, s =>
    match scanExtrinsicsFrom hash256 n (chain n) 0 s with
    | (s', true) => (s', true)
    | (s', false) => scanBlocksInBatch hash256 chain rest s'

/-- The batch loop of `main` (checkExtrinsic.js lines 279-338): the
`try/catch` logs a failed batch and continues with the state reached so
far. -/
def processBatches (hash256 : List Nat → List Nat)
    (chain : Nat → List Extrinsic) : List (List Nat) → ScanState → ScanState
  | [], s => s
  | batch :: rest, s =>
    processBatches hash256 chain rest (scanBlocksInBatch hash256 chain batch s).1

/-- `chunkArray` (checkExtrinsic.js lines 43-49).  With `size = 0` the JS loop
never advances; that case is unreachable (`BATCH_SIZE ≥ 1`) and mapped to
`[]`. -/
def chunkArray : List α → Nat → List (List α)
  | [], _ => []
  | _ :: _, 0 => []
  | a :: rest, size + 1 =>
    (a :: List.take size rest) :: chunkArray (List.drop size rest) (size + 1)
termination_by l _ => l.length
decreasing_by simp [Nat.lt_succ_of_le, List.length_drop]

/-- `Array.from({ length: endBlock - startBlock + 1 }, (_, i) => startBlock + i)`
(checkExtrinsic.js line 272), for an ascending range. -/
def allBlocks (startBlock endBlock : Nat) : List Nat :=
  List.range' startBlock (endBlock - startBlock + 1)

/-- Fresh scan state: `counters = { total: 0, unique: new Set() }` (line 271)
and the module-level `debugCounters` zeros (lines 52-56). -/
def initialScanState : ScanState := ⟨⟨0, []⟩, ⟨0, 0, []⟩, []⟩

/-- The whole scan of `main` with the external collaborators abstracted:
chunk the ascending block range and process every batch in order. -/
def mainScan (hash256 : List Nat → List Nat) (chain : Nat → List Extrinsic)
    (startBlock endBlock batchSize : Nat) : ScanState :=
  processBatches hash256 chain (chunkArray (allBlocks startBlock endBlock) batchSize)
    initialScanState

mutual

/-- Whether a call tree contains a call whose action is `asDerivative` at any
depth (the call itself, or any call nested anywhere inside its arguments). -/
def hasAsDerivativeCall : Call → Bool
  | Call.mk _ method args => method = "asDerivative" || hasAsDerivativeArgs args

def hasAsDerivativeArgs : List Arg → Bool
  | [] => false
  | a :: rest => hasAsDerivativeArg a || hasAsDerivativeArgs rest

def hasAsDerivativeArg : Arg → Bool
  | Arg.num _ => false
  | Arg.raw _ => false
  | Arg.callArg c => hasAsDerivativeCall c
  | Arg.seq cs => hasAsDerivativeCalls cs

def hasAsDerivativeCalls : List Call → Bool
  | [] => false
  | c :: rest => hasAsDerivativeCall c || hasAsDerivativeCalls rest

end

/-- The effective index byte is the low 8 bits: `i & 0xff = i mod 256`. -/
theorem land255_eq_mod (i : Nat) : i &&& 255 = i % 256 := by
  have h : (255 : Nat) = 2 ^ 8 - 1 := by norm_num
  rw [h, Nat.and_pow_two_sub_one_eq_mod]

/-- Claim C1: for every 32-byte parent account P and integer index i, the
account deriver returns the 32-byte digest of the buffer formed by the fixed
textual prefix `modlpy/utilisuba`, the raw bytes of P, and the single byte
`i & 0xFF`; the inline derivation of `checkAccountDerivatives` agrees with
it byte for byte. -/
theorem deriveAccountCorrect_buffer_hash
    (hash256 : List Nat → List Nat) (P : List Nat) (i : Nat)
    (hP : P.length = 32) (hh : ∀ b, (hash256 b).length = 32) :
    deriveAccountCorrect hash256 P i
        = some (hash256 (derivationPrefixBytes ++ P ++ [i % 256]))
      ∧ (hash256 (derivationPrefixBytes ++ P ++ [i % 256])).length = 32
      ∧ derivationPrefixBytes
          = [109, 111, 100, 108, 112, 121, 47, 117, 116, 105, 108, 105, 115, 117, 98, 97]
      ∧ deriveAccountCorrect hash256 P i = checkAccountDerivativesDerive hash256 P i := by
  refine ⟨?_, hh _, by decide, rfl⟩
  simp [deriveAccountCorrect, hP, land255_eq_mod]

theorem deriveAccountCorrect_buffer_hash_witness :
    deriveAccountCorrect (fun _ => List.replicate 32 0) (List.replicate 32 1) 300
        = some ((fun _ => List.replicate 32 0)
            (derivationPrefixBytes ++ List.replicate 32 1 ++ [300 % 256]))
      ∧ ((fun _ => List.replicate 32 0)
            (derivationPrefixBytes ++ List.replicate 32 1 ++ [300 % 256])).length = 32
      ∧ derivationPrefixBytes
          = [109, 111, 100, 108, 112, 121, 47, 117, 116, 105, 108, 105, 115, 117, 98, 97]
      ∧ deriveAccountCorrect (fun _ => List.replicate 32 0) (List.replicate 32 1) 300
          = checkAccountDerivativesDerive (fun _ => List.replicate 32 0)
              (List.replicate 32 1) 300 :=
  deriveAccountCorrect_buffer_hash (fun _ => List.replicate 32 0)
    (List.replicate 32 1) 300 (by simp) (fun _ => by simp)

/-- Claim C3: for every valid 32-byte parent account and all indices i, j with
`i mod 256 = j mod 256`, the derived accounts coincide: only the low 8 bits of
the index affect the result. -/
theorem deriveAccountCorrect_mod256
    (hash256 : List Nat → List Nat) (P : List Nat) (i j : Nat)
    (hP : P.length = 32) (hij : i % 256 = j % 256) :
    deriveAccountCorrect hash256 P i = deriveAccountCorrect hash256 P j := by
  simp only [deriveAccountCorrect, land255_eq_mod, hij]

theorem deriveAccountCorrect_mod256_witness :
    deriveAccountCorrect (fun b => b) (List.replicate 32 7) 261
      = deriveAccountCorrect (fun b => b) (List.replicate 32 7) 5 :=
  deriveAccountCorrect_mod256 (fun b => b) (List.replicate 32 7) 261 5
    (by simp) (by norm_num)

/-- Claim C6: a parent account that is not exactly 32 bytes makes the deriver
fail (the `InvalidAccountFormat` throw of `createType('AccountId32', ...)`,
modelled as `none`) instead of being silently coerced; on every 32-byte parent
the deriver succeeds — there is no other failure mode. -/
theorem deriveAccountCorrect_length_check
    (hash256 : List Nat → List Nat) (P : List Nat) (i : Nat) :
    (P.length ≠ 32 → deriveAccountCorrect hash256 P i = none)
      ∧ ((deriveAccountCorrect hash256 P i).isSome = true ↔ P.length = 32) := by
  constructor
  · intro h
    simp [deriveAccountCorrect, h]
  · by_cases h : P.length = 32 <;> simp [deriveAccountCorrect, h]

theorem deriveAccountCorrect_length_check_witness :
    ((List.replicate 31 0).length ≠ 32 →
        deriveAccountCorrect (fun b => b) (List.replicate 31 0) 4 = none)
      ∧ ((deriveAccountCorrect (fun b => b) (List.replicate 31 0) 4).isSome = true
          ↔ (List.replicate 31 0).length = 32) :=
  deriveAccountCorrect_length_check (fun b => b) (List.replicate 31 0) 4

theorem mem_addUnique (l : List (List Nat)) (x : List Nat) : x ∈ addUnique l x := by
  by_cases h : x ∈ l <;> simp [addUnique, h]

/-- Claim C2: when the matcher visits a `utility`/`asDerivative` call it reads
`args[0]` as the derivation index and `args[1]` as the inner call, increments
`counters.total` by exactly 1, adds the derived account to the unique set, and
emits exactly one MatchRecord whose `derivedAccount` is exactly the account
deriver applied to `(signer, derivativeIndex)`. -/
theorem checkAsDerivative_match_emits
    (hash256 : List Nat → List Nat) (i : Nat) (inner : Call) (restArgs : List Arg)
    (bn ei : Nat) (signer : List Nat) (depth : Nat) (s : ScanState)
    (hsig : signer.length = 32) :
    ∃ d : List Nat,
      deriveAccountCorrect hash256 signer i = some d
      ∧ (checkAsDerivative hash256
          (Call.mk "utility" "asDerivative" (Arg.num i :: Arg.callArg inner :: restArgs))
          bn ei signer depth s).2 = false
      ∧ (checkAsDerivative hash256
          (Call.mk "utility" "asDerivative" (Arg.num i :: Arg.callArg inner :: restArgs))
          bn ei signer depth s).1.counters.total = s.counters.total + 1
      ∧ (checkAsDerivative hash256
          (Call.mk "utility" "asDerivative" (Arg.num i :: Arg.callArg inner :: restArgs))
          bn ei signer depth s).1.counters.unique = addUnique s.counters.unique d
      ∧ d ∈ (checkAsDerivative hash256
          (Call.mk "utility" "asDerivative" (Arg.num i :: Arg.callArg inner :: restArgs))
          bn ei signer depth s).1.counters.unique
      ∧ (checkAsDerivative hash256
          (Call.mk "utility" "asDerivative" (Arg.num i :: Arg.callArg inner :: restArgs))
          bn ei signer depth s).1.records = s.records ++
          [{ block := bn, extrinsicIndex := ei, signer := signer,
             derivativeIndex := i, derivedAccount := d,
             innerCall := inner.sect ++ "." ++ inner.method,
             innerCallArgs := inner.args }] := by
  have hd : deriveAccountCorrect hash256 signer i
      = some (hash256 (derivationPrefixBytes ++ signer ++ [i &&& 255])) := by
    simp [deriveAccountCorrect, hsig]
  refine ⟨hash256 (derivationPrefixBytes ++ signer ++ [i &&& 255]), hd, ?_⟩
  by_cases hdep : depth = 0 <;>
    simp [checkAsDerivative, hd, hdep, mem_addUnique]

theorem checkAsDerivative_match_emits_witness :
    ∃ d : List Nat,
      deriveAccountCorrect (fun _ => List.replicate 32 9) (List.replicate 32 0) 5 = some d
      ∧ (checkAsDerivative (fun _ => List.replicate 32 9)
          (Call.mk "utility" "asDerivative"
            [Arg.num 5, Arg.callArg (Call.mk "system" "remark" [])])
          101 0 (List.replicate 32 0) 0 initialScanState).2 = false
      ∧ (checkAsDerivative (fun _ => List.replicate 32 9)
          (Call.mk "utility" "asDerivative"
            [Arg.num 5, Arg.callArg (Call.mk "system" "remark" [])])
          101 0 (List.replicate 32 0) 0 initialScanState).1.counters.total
          = initialScanState.counters.total + 1
      ∧ (checkAsDerivative (fun _ => List.replicate 32 9)
          (Call.mk "utility" "asDerivative"
            [Arg.num 5, Arg.callArg (Call.mk "system" "remark" [])])
          101 0 (List.replicate 32 0) 0 initialScanState).1.counters.unique
          = addUnique initialScanState.counters.unique d
      ∧ d ∈ (checkAsDerivative (fun _ => List.replicate 32 9)
          (Call.mk "utility" "asDerivative"
            [Arg.num 5, Arg.callArg (Call.mk "system" "remark" [])])
          101 0 (List.replicate 32 0) 0 initialScanState).1.counters.unique
      ∧ (checkAsDerivative (fun _ => List.replicate 32 9)
          (Call.mk "utility" "asDerivative"
            [Arg.num 5, Arg.callArg (Call.mk "system" "remark" [])])
          101 0 (List.replicate 32 0) 0 initialScanState).1.records
          = initialScanState.records ++
          [{ block := 101, extrinsicIndex := 0, signer := List.replicate 32 0,
             derivativeIndex := 5, derivedAccount := d,
             innerCall := (Call.mk "system" "remark" []).sect ++ "."
               ++ (Call.mk "system" "remark" []).method,
             innerCallArgs := (Call.mk "system" "remark" []).args }] :=
  checkAsDerivative_match_emits (fun _ => List.replicate 32 9) 5
    (Call.mk "system" "remark" []) [] 101 0 (List.replicate 32 0) 0
    initialScanState (by simp)

theorem addUnique_length (l : List (List Nat)) (x : List Nat) :
    (addUnique l x).length ≤ l.length + 1 := by
  by_cases h : x ∈ l <;> simp [addUnique, h]

/-- A call outside the `utility` section is a complete no-op for the matcher:
no branch fires, not even the depth-0 debug tally. -/
theorem check_nonUtility (hash256 : List Nat → List Nat)
    (sect method : String) (args : List Arg) (bn ei : Nat) (signer : List Nat)
    (depth : Nat) (s : ScanState) (hsect : sect ≠ "utility") :
    checkAsDerivative hash256 (Call.mk sect method args) bn ei signer depth s
      = (s, false) := by
  rw [checkAsDerivative.eq_def]
  simp [hsect]

/-- A list of calls all outside the `utility` section is a no-op for the
nested-call loop. -/
theorem checkNestedCalls_nonUtility (hash256 : List Nat → List Nat)
    (cs : List Call) (bn ei : Nat) (signer : List Nat) (depth : Nat)
    (s : ScanState) (h : ∀ c ∈ cs, c.sect ≠ "utility") :
    checkNestedCalls hash256 cs bn ei signer depth s = (s, false) := by
  induction cs generalizing s with
  | nil => simp [checkNestedCalls]
  | cons c rest ih =>
    obtain ⟨sc, mc, ac⟩ := c
    have hc : sc ≠ "utility" := by
      have := h (Call.mk sc mc ac) (by simp)
      simpa [Call.sect] using this
    rw [checkNestedCalls, check_nonUtility hash256 sc mc ac bn ei signer depth s hc]
    exact ih s (fun c hcmem => h c (by simp [hcmem]))

/-- At positive depth, a well-formed `asDerivative` call with a valid signer
performs exactly the source's mutations: counters update, one record
appended. -/
theorem check_asDer_depthPos (hash256 : List Nat → List Nat) (i : Nat)
    (inner : Call) (restArgs : List Arg) (bn ei : Nat) (signer : List Nat)
    (depth : Nat) (s : ScanState) (hdep : depth ≠ 0) (hsig : signer.length = 32) :
    checkAsDerivative hash256
        (Call.mk "utility" "asDerivative" (Arg.num i :: Arg.callArg inner :: restArgs))
        bn ei signer depth s
      = ({ s with
            counters :=
              { total := s.counters.total + 1,
                unique := addUnique s.counters.unique
                  (hash256 (derivationPrefixBytes ++ signer ++ [i &&& 255])) },
            records := s.records ++
              [{ block := bn, extrinsicIndex := ei, signer := signer,
                 derivativeIndex := i,
                 derivedAccount :=
                   hash256 (derivationPrefixBytes ++ signer ++ [i &&& 255]),
                 innerCall := inner.sect ++ "." ++ inner.method,
                 innerCallArgs := inner.args }] }, false) := by
  have hd : deriveAccountCorrect hash256 signer i
      = some (hash256 (derivationPrefixBytes ++ signer ++ [i &&& 255])) := by
    simp [deriveAccountCorrect, hsig]
  simp [checkAsDerivative, hd, hdep]

/-- At positive depth, a batch-like call whose first argument is a call vector
just runs the nested loop one level deeper. -/
theorem check_batch_seq_depthPos (hash256 : List Nat → List Nat)
    (method : String) (cs : List Call) (rest : List Arg) (bn ei : Nat)
    (signer : List Nat) (depth : Nat) (s : ScanState) (hdep : depth ≠ 0)
    (hm : method = "batch" ∨ method = "batchAll") :
    checkAsDerivative hash256 (Call.mk "utility" method (Arg.seq cs :: rest))
        bn ei signer depth s
      = checkNestedCalls hash256 cs bn ei signer (depth + 1) s := by
  have hne : method ≠ "asDerivative" := by
    rcases hm with rfl | rfl <;> decide
  rcases hm with rfl | rfl <;> simp [checkAsDerivative, hdep, hne]

/-- Claim C5: a `utility` batch call (`batch` or `batchAll`) whose first
argument is not a call sequence does not throw, matches nothing, and leaves
the counters and emitted records untouched. -/
theorem malformed_batch_skipped (hash256 : List Nat → List Nat)
    (method : String) (a : Arg) (rest : List Arg) (bn ei : Nat)
    (signer : List Nat) (depth : Nat) (s : ScanState)
    (hm : method = "batch" ∨ method = "batchAll") (ha : a.isSeq = false) :
    (checkAsDerivative hash256 (Call.mk "utility" method (a :: rest))
        bn ei signer depth s).2 = false
      ∧ (checkAsDerivative hash256 (Call.mk "utility" method (a :: rest))
          bn ei signer depth s).1.counters = s.counters
      ∧ (checkAsDerivative hash256 (Call.mk "utility" method (a :: rest))
          bn ei signer depth s).1.records = s.records := by
  have hne : method ≠ "asDerivative" := by
    rcases hm with rfl | rfl <;> decide
  rcases hm with rfl | rfl <;> cases a <;> simp [Arg.isSeq] at ha <;>
    by_cases hdep : depth = 0 <;>
      simp [checkAsDerivative, hdep]

theorem malformed_batch_skipped_witness :
    ((checkAsDerivative (fun b => b) (Call.mk "utility" "batch" [Arg.num 7])
        5 0 (List.replicate 32 0) 0 initialScanState).2 = false
      ∧ (checkAsDerivative (fun b => b) (Call.mk "utility" "batch" [Arg.num 7])
          5 0 (List.replicate 32 0) 0 initialScanState).1.counters
          = initialScanState.counters
      ∧ (checkAsDerivative (fun b => b) (Call.mk "utility" "batch" [Arg.num 7])
          5 0 (List.replicate 32 0) 0 initialScanState).1.records
          = initialScanState.records) :=
  malformed_batch_skipped (fun b => b) "batch" (Arg.num 7) [] 5 0
    (List.replicate 32 0) 0 initialScanState (Or.inl rfl) (by simp [Arg.isSeq])

mutual

/-- Frame lemma for one matcher invocation: the record sink only grows by a
suffix `new`; on a throw-free run the total counter grows by exactly the
number of new records and the unique set by at most that number, with both
untouched when nothing was emitted; and on a call tree without any
`asDerivative` action the ScanCounters are untouched and nothing is
emitted (throw or not). -/
theorem checkDelta (hash256 : List Nat → List Nat) (call : Call)
    (bn ei : Nat) (signer : List Nat) (depth : Nat) (s : ScanState) :
    ∃ new : List MatchRecord,
      (checkAsDerivative hash256 call bn ei signer depth s).1.records
          = s.records ++ new
      ∧ ((checkAsDerivative hash256 call bn ei signer depth s).2 = false →
          (checkAsDerivative hash256 call bn ei signer depth s).1.counters.total
              = s.counters.total + new.length
          ∧ (checkAsDerivative hash256 call bn ei signer depth s).1.counters.unique.length
              ≤ s.counters.unique.length + new.length
          ∧ (new = [] →
              (checkAsDerivative hash256 call bn ei signer depth s).1.counters
                = s.counters))
      ∧ (hasAsDerivativeCall call = false →
          (checkAsDerivative hash256 call bn ei signer depth s).1.counters
              = s.counters
          ∧ new = []) := by
  obtain ⟨sect, method, args⟩ := call
  by_cases hA : sect = "utility" ∧ method = "asDerivative"
  · obtain ⟨hsect, hmeth⟩ := hA
    subst hsect hmeth
    have hhas : hasAsDerivativeCall (Call.mk "utility" "asDerivative" args) = true := by
      simp [hasAsDerivativeCall]
    match args with
    | [] =>
      refine ⟨[], ?_, ?_, ?_⟩ <;>
        simp [checkAsDerivative, hhas, apply_ite ScanState.records,
          apply_ite ScanState.counters]
    | Arg.num i :: restArgs =>
      match hder : deriveAccountCorrect hash256 signer i with
      | none =>
        refine ⟨[], ?_, ?_, ?_⟩ <;>
          simp [checkAsDerivative, hder, hhas, apply_ite ScanState.records,
            apply_ite ScanState.counters]
      | some d =>
        match restArgs with
        | [] =>
          refine ⟨[], ?_, ?_, ?_⟩ <;>
            simp [checkAsDerivative, hder, hhas, apply_ite ScanState.records,
              apply_ite ScanState.counters]
        | Arg.num m :: tail =>
          refine ⟨[], ?_, ?_, ?_⟩ <;>
            simp [checkAsDerivative, hder, hhas, apply_ite ScanState.records,
              apply_ite ScanState.counters]
        | Arg.seq cs' :: tail =>
          refine ⟨[], ?_, ?_, ?_⟩ <;>
            simp [checkAsDerivative, hder, hhas, apply_ite ScanState.records,
              apply_ite ScanState.counters]
        | Arg.raw str :: tail =>
          refine ⟨[], ?_, ?_, ?_⟩ <;>
            simp [checkAsDerivative, hder, hhas, apply_ite ScanState.records,
              apply_ite ScanState.counters]
        | Arg.callArg inner :: tail =>
          refine ⟨[MatchRecord.mk bn ei signer i d
              (inner.sect ++ "." ++ inner.method) inner.args], ?_, ?_, ?_⟩ <;>
            simp [checkAsDerivative, hder, hhas, apply_ite ScanState.records,
              apply_ite ScanState.counters, apply_ite ScanCounters.unique,
              apply_ite List.length, addUnique_length]
    | Arg.callArg c' :: restArgs =>
      refine ⟨[], ?_, ?_, ?_⟩ <;>
        simp [checkAsDerivative, hhas, apply_ite ScanState.records,
          apply_ite ScanState.counters]
    | Arg.seq cs' :: restArgs =>
      refine ⟨[], ?_, ?_, ?_⟩ <;>
        simp [checkAsDerivative, hhas, apply_ite ScanState.records,
          apply_ite ScanState.counters]
    | Arg.raw str :: restArgs =>
      refine ⟨[], ?_, ?_, ?_⟩ <;>
        simp [checkAsDerivative, hhas, apply_ite ScanState.records,
          apply_ite ScanState.counters]
  · by_cases hB : sect = "utility" ∧ (method = "batch" ∨ method = "batchAll")
    · obtain ⟨hsect, hmeth⟩ := hB
      subst hsect
      have hne : method ≠ "asDerivative" := by
        rcases hmeth with rfl | rfl <;> decide
      match args with
      | [] =>
        refine ⟨[], ?_, ?_, ?_⟩ <;>
          simp [checkAsDerivative, hne, hmeth, apply_ite ScanState.records,
            apply_ite ScanState.counters]
      | Arg.seq cs :: restArgs =>
        have hstep : checkAsDerivative hash256
            (Call.mk "utility" method (Arg.seq cs :: restArgs)) bn ei signer depth s
            = checkNestedCalls hash256 cs bn ei signer (depth + 1)
                (if depth = 0 then
                  { s with debug := { s.debug with
                    utilityMethods := bumpCount s.debug.utilityMethods method } }
                 else s) := by
          rw [checkAsDerivative.eq_def]
          simp [hne, hmeth]
        set s1 : ScanState :=
          (if depth = 0 then
            { s with debug := { s.debug with
              utilityMethods := bumpCount s.debug.utilityMethods method } }
           else s) with hs1
        have hs1c : s1.counters = s.counters := by
          rw [hs1]; split <;> rfl
        have hs1r : s1.records = s.records := by
          rw [hs1]; split <;> rfl
        obtain ⟨new, hrec, hok, hnom⟩ :=
          checkListDelta hash256 cs bn ei signer (depth + 1) s1
        refine ⟨new, ?_, ?_, ?_⟩
        · rw [hstep, hrec, hs1r]
        · intro hfalse
          rw [hstep] at hfalse ⊢
          obtain ⟨h1, h2, h3⟩ := hok hfalse
          exact ⟨by rw [h1, hs1c], by rw [hs1c] at h2; exact h2,
            fun hnew => by rw [h3 hnew, hs1c]⟩
        · intro hnoas
          have hcs : hasAsDerivativeCalls cs = false := by
            simp [hasAsDerivativeCall, hasAsDerivativeArgs,
              hasAsDerivativeArg] at hnoas
            simp [hnoas]
          obtain ⟨h1, h2⟩ := hnom hcs
          rw [hstep]
          exact ⟨by rw [h1, hs1c], h2⟩
      | Arg.num n :: restArgs =>
        refine ⟨[], ?_, ?_, ?_⟩ <;>
          simp [checkAsDerivative, hne, hmeth, apply_ite ScanState.records,
            apply_ite ScanState.counters]
      | Arg.callArg c' :: restArgs =>
        refine ⟨[], ?_, ?_, ?_⟩ <;>
          simp [checkAsDerivative, hne, hmeth, apply_ite ScanState.records,
            apply_ite ScanState.counters]
      | Arg.raw str :: restArgs =>
        refine ⟨[], ?_, ?_, ?_⟩ <;>
          simp [checkAsDerivative, hne, hmeth, apply_ite ScanState.records,
            apply_ite ScanState.counters]
    · refine ⟨[], ?_, ?_, ?_⟩ <;>
        · rw [checkAsDerivative.eq_def]
          simp [hA, hB, apply_ite ScanState.records, apply_ite ScanState.counters]

/-- Frame lemma for the nested-call loop, mutual with `checkDelta`. -/
theorem checkListDelta (hash256 : List Nat → List Nat) (cs : List Call)
    (bn ei : Nat) (signer : List Nat) (depth : Nat) (s : ScanState) :
    ∃ new : List MatchRecord,
      (checkNestedCalls hash256 cs bn ei signer depth s).1.records
          = s.records ++ new
      ∧ ((checkNestedCalls hash256 cs bn ei signer depth s).2 = false →
          (checkNestedCalls hash256 cs bn ei signer depth s).1.counters.total
              = s.counters.total + new.length
          ∧ (checkNestedCalls hash256 cs bn ei signer depth s).1.counters.unique.length
              ≤ s.counters.unique.length + new.length
          ∧ (new = [] →
              (checkNestedCalls hash256 cs bn ei signer depth s).1.counters
                = s.counters))
      ∧ (hasAsDerivativeCalls cs = false →
          (checkNestedCalls hash256 cs bn ei signer depth s).1.counters
              = s.counters
          ∧ new = []) := by
  match cs with
  | [] => exact ⟨[], by simp [checkNestedCalls], by simp [checkNestedCalls],
      by simp [checkNestedCalls]⟩
  | c :: rest =>
    obtain ⟨new1, hr1, hok1, hnom1⟩ := checkDelta hash256 c bn ei signer depth s
    have hcons : checkNestedCalls hash256 (c :: rest) bn ei signer depth s
        = match checkAsDerivative hash256 c bn ei signer depth s with
          | (s', true) => (s', true)
          | (s', false) => checkNestedCalls hash256 rest bn ei signer depth s' := by
      rw [checkNestedCalls]
    match hc : checkAsDerivative hash256 c bn ei signer depth s with
    | (s1, true) =>
      rw [hc] at hr1 hok1 hnom1
      refine ⟨new1, ?_, ?_, ?_⟩
      · rw [hcons, hc]
        exact hr1
      · intro hfalse
        rw [hcons, hc] at hfalse
        simp at hfalse
      · intro hnoas
        simp [hasAsDerivativeCalls] at hnoas
        rw [hcons, hc]
        exact hnom1 (by simp [hnoas.1])
    | (s1, false) =>
      rw [hc] at hr1 hok1 hnom1
      simp only at hr1 hok1 hnom1
      obtain ⟨new2, hr2, hok2, hnom2⟩ :=
        checkListDelta hash256 rest bn ei signer depth s1
      have hres : checkNestedCalls hash256 (c :: rest) bn ei signer depth s
          = checkNestedCalls hash256 rest bn ei signer depth s1 := by
        rw [hcons, hc]
      refine ⟨new1 ++ new2, ?_, ?_, ?_⟩
      · rw [hres, hr2, hr1, List.append_assoc]
      · intro hfalse
        rw [hres] at hfalse ⊢
        obtain ⟨ha1, ha2, ha3⟩ := hok1 (by simp)
        obtain ⟨hb1, hb2, hb3⟩ := hok2 hfalse
        refine ⟨?_, ?_, ?_⟩
        · rw [hb1, ha1, List.length_append]
          omega
        · calc (checkNestedCalls hash256 rest bn ei signer depth s1).1.counters.unique.length
              ≤ s1.counters.unique.length + new2.length := hb2
            _ ≤ s.counters.unique.length + new1.length + new2.length :=
              Nat.add_le_add_right ha2 _
            _ = s.counters.unique.length + (new1 ++ new2).length := by
              rw [List.length_append]; omega
        · intro hnew
          rw [List.append_eq_nil] at hnew
          rw [hb3 hnew.2, ha3 hnew.1]
      · intro hnoas
        simp [hasAsDerivativeCalls] at hnoas
        obtain ⟨ha1, ha2⟩ := hnom1 (by simp [hnoas.1])
        obtain ⟨hb1, hb2⟩ := hnom2 (by simp [hnoas.2])
        rw [hres]
        exact ⟨by rw [hb1, ha1], by rw [ha2, hb2]; rfl⟩

end

/-- Claim C7 counterexample: the claim also asserts that every non-matching
call is "ignored with no side effect at all", but a non-matching `utility`
call at depth 0 mutates the global debug tally of utility method names
(checkExtrinsic.js lines 60-63), so the visit is not side-effect free. -/
theorem nonmatching_side_effect_cex :
    hasAsDerivativeCall (Call.mk "utility" "transfer" []) = false
    ∧ (checkAsDerivative (fun b => b) (Call.mk "utility" "transfer" [])
        3 0 (List.replicate 32 0) 0 initialScanState).1.debug.utilityMethods
        = [("transfer", 1)]
    ∧ initialScanState.debug.utilityMethods = [] := by
  refine ⟨?_, ?_, rfl⟩
  · simp [hasAsDerivativeCall, hasAsDerivativeArgs]
  · simp [checkAsDerivative, bumpCount, initialScanState]

/-- Claim C7 (amended): a call tree containing no `asDerivative` action at any
depth yields zero MatchRecords and leaves the ScanCounters unmutated; every
non-matching call leaves the ScanCounters and the emitted records unchanged
(the global debug tally of utility method names may still be updated for
utility calls at depth 0). -/
theorem no_asDerivative_counters_unchanged (hash256 : List Nat → List Nat)
    (call : Call) (bn ei : Nat) (signer : List Nat) (depth : Nat) (s : ScanState)
    (h : hasAsDerivativeCall call = false) :
    (checkAsDerivative hash256 call bn ei signer depth s).1.counters = s.counters
    ∧ (checkAsDerivative hash256 call bn ei signer depth s).1.records = s.records := by
  obtain ⟨new, hrec, _, hnom⟩ := checkDelta hash256 call bn ei signer depth s
  obtain ⟨hcnt, hnew⟩ := hnom h
  exact ⟨hcnt, by rw [hrec, hnew, List.append_nil]⟩

theorem no_asDerivative_counters_unchanged_witness :
    (checkAsDerivative (fun b => b)
        (Call.mk "utility" "batch" [Arg.seq [Call.mk "system" "remark" []]])
        3 1 (List.replicate 32 0) 0 initialScanState).1.counters
        = initialScanState.counters
    ∧ (checkAsDerivative (fun b => b)
        (Call.mk "utility" "batch" [Arg.seq [Call.mk "system" "remark" []]])
        3 1 (List.replicate 32 0) 0 initialScanState).1.records
        = initialScanState.records :=
  no_asDerivative_counters_unchanged (fun b => b)
    (Call.mk "utility" "batch" [Arg.seq [Call.mk "system" "remark" []]])
    3 1 (List.replicate 32 0) 0 initialScanState
    (by simp [hasAsDerivativeCall, hasAsDerivativeArgs, hasAsDerivativeArg,
      hasAsDerivativeCalls])

/-- Claim C9 counterexample: an `asDerivative` call whose first argument is a
number but whose second argument is missing increments `counters.total` and
grows the unique set, then throws inside `writeDetail` before any MatchRecord
is emitted (checkExtrinsic.js lines 67-87: the counters mutate on lines 71-72,
before the record build on line 85 dereferences the missing inner call) — so
`counters.total` does not always equal the number of emitted records, and the
counters can change without a record being emitted. -/
theorem counters_total_throw_cex :
    (checkAsDerivative (fun _ => List.replicate 32 9)
        (Call.mk "utility" "asDerivative" [Arg.num 5])
        7 0 (List.replicate 32 0) 0 initialScanState).1.counters.total = 1
    ∧ (checkAsDerivative (fun _ => List.replicate 32 9)
        (Call.mk "utility" "asDerivative" [Arg.num 5])
        7 0 (List.replicate 32 0) 0 initialScanState).1.records = []
    ∧ (checkAsDerivative (fun _ => List.replicate 32 9)
        (Call.mk "utility" "asDerivative" [Arg.num 5])
        7 0 (List.replicate 32 0) 0 initialScanState).2 = true := by
  refine ⟨?_, ?_, ?_⟩ <;>
    simp [checkAsDerivative, deriveAccountCorrect, initialScanState, addUnique]

/-- Claim C9 (amended): on every matcher run that completes without throwing,
`counters.total` equals the number of MatchRecords emitted so far (it grows by
exactly the number of new records), the unique derived-account set never
exceeds `counters.total`, and both fields are unchanged when no record was
emitted; a malformed `asDerivative` (numeric index, missing or non-call second
argument) instead mutates the counters and throws without emitting. -/
theorem counters_match_records_inv (hash256 : List Nat → List Nat)
    (call : Call) (bn ei : Nat) (signer : List Nat) (depth : Nat)
    (s s' : ScanState)
    (h : checkAsDerivative hash256 call bn ei signer depth s = (s', false))
    (htot : s.counters.total = s.records.length)
    (huniq : s.counters.unique.length ≤ s.counters.total) :
    s'.counters.total = s'.records.length
    ∧ s'.counters.unique.length ≤ s'.counters.total
    ∧ (s'.records = s.records → s'.counters = s.counters)
    ∧ ∃ new : List MatchRecord, s'.records = s.records ++ new := by
  obtain ⟨new, hrec, hok, _⟩ := checkDelta hash256 call bn ei signer depth s
  rw [h] at hrec hok
  obtain ⟨h1, h2, h3⟩ := hok rfl
  simp only at hrec h1 h2 h3
  refine ⟨?_, ?_, ?_, ⟨new, hrec⟩⟩
  · rw [h1, hrec, List.length_append, htot]
  · rw [h1]
    omega
  · intro hsame
    rw [hsame] at hrec
    have hnew : new = [] := by
      have := List.append_right_eq_self.mp hrec.symm
      simpa using this
    exact h3 hnew

theorem counters_match_records_inv_witness :
    initialScanState.counters.total = initialScanState.records.length
    ∧ initialScanState.counters.unique.length ≤ initialScanState.counters.total
    ∧ (initialScanState.counters.total = initialScanState.records.length
        ∧ initialScanState.counters.unique.length ≤ initialScanState.counters.total
        ∧ (initialScanState.records = initialScanState.records →
            initialScanState.counters = initialScanState.counters)
        ∧ ∃ new : List MatchRecord,
            initialScanState.records = initialScanState.records ++ new) :=
  ⟨rfl, Nat.le_refl _,
    counters_match_records_inv (fun b => b) (Call.mk "system" "remark" [])
      2 0 (List.replicate 32 0) 0 initialScanState initialScanState
      (check_nonUtility (fun b => b) "system" "remark" [] 2 0
        (List.replicate 32 0) 0 initialScanState (by decide))
      rfl (Nat.le_refl _)⟩

/-- The nested-call loop over a concatenation runs the first part, then, if
nothing threw, the second part from the reached state. -/
theorem checkNestedCalls_append (hash256 : List Nat → List Nat)
    (xs ys : List Call) (bn ei : Nat) (signer : List Nat) (depth : Nat)
    (s : ScanState) :
    checkNestedCalls hash256 (xs ++ ys) bn ei signer depth s
      = match checkNestedCalls hash256 xs bn ei signer depth s with
        | (s', true) => (s', true)
        | (s', false) => checkNestedCalls hash256 ys bn ei signer depth s' := by
  induction xs generalizing s with
  | nil => simp [checkNestedCalls]
  | cons c rest ih =>
    rw [List.cons_append, checkNestedCalls, checkNestedCalls]
    cases hc : checkAsDerivative hash256 c bn ei signer depth s with
    | mk s1 b =>
      cases b
      · simp [ih]
      · simp

/-- Claim C4: an `asDerivative` nested at recursion depth 2 — a `batch` whose
sub-calls include a `batchAll` that itself contains the `asDerivative` — is
found by the scanner and produces exactly one MatchRecord carrying the same
block number, extrinsic index and signer that entered at the top.  The
sibling sub-calls may be arbitrary non-utility calls. -/
theorem nested_depth_two_found (hash256 : List Nat → List Nat)
    (bn ei : Nat) (sig : List Nat) (s : ScanState)
    (pre1 post1 pre2 post2 : List Call) (i : Nat) (inner : Call)
    (restArgs : List Arg) (hsig : sig.length = 32)
    (h1 : ∀ c ∈ pre1, c.sect ≠ "utility") (h2 : ∀ c ∈ post1, c.sect ≠ "utility")
    (h3 : ∀ c ∈ pre2, c.sect ≠ "utility") (h4 : ∀ c ∈ post2, c.sect ≠ "utility") :
    ∃ d : List Nat,
      deriveAccountCorrect hash256 sig i = some d
      ∧ (scanExtrinsic hash256 bn ei
          ⟨some sig, Call.mk "utility" "batch"
            [Arg.seq (pre1 ++ Call.mk "utility" "batchAll"
              [Arg.seq (pre2 ++ Call.mk "utility" "asDerivative"
                  (Arg.num i :: Arg.callArg inner :: restArgs) :: post2)]
              :: post1)]⟩ s).2 = false
      ∧ (scanExtrinsic hash256 bn ei
          ⟨some sig, Call.mk "utility" "batch"
            [Arg.seq (pre1 ++ Call.mk "utility" "batchAll"
              [Arg.seq (pre2 ++ Call.mk "utility" "asDerivative"
                  (Arg.num i :: Arg.callArg inner :: restArgs) :: post2)]
              :: post1)]⟩ s).1.records
          = s.records ++
            [MatchRecord.mk bn ei sig i
              (hash256 (derivationPrefixBytes ++ sig ++ [i &&& 255]))
              (inner.sect ++ "." ++ inner.method) inner.args] := by
  refine ⟨hash256 (derivationPrefixBytes ++ sig ++ [i &&& 255]), ?_, ?_⟩
  · simp [deriveAccountCorrect, hsig]
  · have hrun : ∀ t : ScanState,
        checkNestedCalls hash256
          (pre1 ++ Call.mk "utility" "batchAll"
            [Arg.seq (pre2 ++ Call.mk "utility" "asDerivative"
                (Arg.num i :: Arg.callArg inner :: restArgs) :: post2)]
            :: post1) bn ei sig 1 t
          = ({ t with
                counters :=
                  { total := t.counters.total + 1,
                    unique := addUnique t.counters.unique
                      (hash256 (derivationPrefixBytes ++ sig ++ [i &&& 255])) },
                records := t.records ++
                  [MatchRecord.mk bn ei sig i
                    (hash256 (derivationPrefixBytes ++ sig ++ [i &&& 255]))
                    (inner.sect ++ "." ++ inner.method) inner.args] }, false) := by
      intro t
      rw [checkNestedCalls_append,
        checkNestedCalls_nonUtility hash256 pre1 bn ei sig 1 t h1]
      simp only
      rw [checkNestedCalls,
        check_batch_seq_depthPos hash256 "batchAll" _ [] bn ei sig 1 t
          (by decide) (Or.inr rfl)]
      rw [checkNestedCalls_append,
        checkNestedCalls_nonUtility hash256 pre2 bn ei sig 2 t h3]
      simp only
      rw [checkNestedCalls,
        check_asDer_depthPos hash256 i inner restArgs bn ei sig 2 t
          (by decide) hsig]
      simp only
      rw [checkNestedCalls_nonUtility hash256 post2 bn ei sig 2 _ h4]
      simp only
      rw [checkNestedCalls_nonUtility hash256 post1 bn ei sig 1 _ h2]
    have hscan : scanExtrinsic hash256 bn ei
        ⟨some sig, Call.mk "utility" "batch"
          [Arg.seq (pre1 ++ Call.mk "utility" "batchAll"
            [Arg.seq (pre2 ++ Call.mk "utility" "asDerivative"
                (Arg.num i :: Arg.callArg inner :: restArgs) :: post2)]
            :: post1)]⟩ s
        = checkAsDerivative hash256
            (Call.mk "utility" "batch"
              [Arg.seq (pre1 ++ Call.mk "utility" "batchAll"
                [Arg.seq (pre2 ++ Call.mk "utility" "asDerivative"
                    (Arg.num i :: Arg.callArg inner :: restArgs) :: post2)]
                :: post1)]) bn ei sig 0
            { s with debug :=
              { s.debug with
                totalExtrinsics := s.debug.totalExtrinsics + 1,
                utilityExtrinsics := s.debug.utilityExtrinsics + 1 } } := by
      simp [scanExtrinsic, Call.sect]
    rw [hscan]
    rw [checkAsDerivative.eq_def]
    simp only [List.cons_ne_self, reduceCtorEq, String.reduceEq, and_true,
      and_false, if_false, if_true, ite_false, ite_true, and_self,
      reduceIte]
    rw [hrun]
    simp

/-- Chunking never drops, duplicates or reorders blocks: rejoining the
batches gives back the original block list. -/
theorem chunkArray_join {α : Type _} (k : Nat) (l : List α) :
    (chunkArray l (k + 1)).flatten = l := by
  match l with
  | [] => simp [chunkArray]
  | a :: rest =>
    rw [chunkArray]
    simp only [List.flatten_cons]
    rw [chunkArray_join k (List.drop k rest)]
    simp [List.take_append_drop]
termination_by l.length
decreasing_by simp [List.length_drop]; omega

/-- Claim C8: the scan visits exactly the requested ascending block range in
ascending order (the batches rejoin to the strictly increasing block list),
and scanning blocks 100-102 where only block 101 contains a match emits
exactly one MatchRecord, whose block number is 101. -/
theorem scan_order_preservation :
    (∀ (size : Nat) (l : List Nat), 0 < size → (chunkArray l size).flatten = l)
    ∧ (∀ startB endB : Nat, List.Pairwise (· < ·) (allBlocks startB endB))
    ∧ (chunkArray (allBlocks 100 102) 20).flatten = [100, 101, 102]
    ∧ ((mainScan (fun _ => List.replicate 32 0)
        (fun n =>
          if n = 101 then
            [⟨some (List.replicate 32 0),
              Call.mk "utility" "asDerivative"
                [Arg.num 5, Arg.callArg (Call.mk "system" "remark" [])]⟩]
          else if n = 100 then
            [⟨some (List.replicate 32 0), Call.mk "system" "remark" []⟩]
          else [])
        100 102 20).records.length = 1
      ∧ ((mainScan (fun _ => List.replicate 32 0)
        (fun n =>
          if n = 101 then
            [⟨some (List.replicate 32 0),
              Call.mk "utility" "asDerivative"
                [Arg.num 5, Arg.callArg (Call.mk "system" "remark" [])]⟩]
          else if n = 100 then
            [⟨some (List.replicate 32 0), Call.mk "system" "remark" []⟩]
          else [])
        100 102 20).records.map MatchRecord.block) = [101]) := by
  refine ⟨?_, ?_, ?_, ?_⟩
  · intro size l hsize
    obtain ⟨k, rfl⟩ : ∃ k, size = k + 1 := ⟨size - 1, by omega⟩
    exact chunkArray_join k l
  · intro startB endB
    exact List.pairwise_lt_range' startB (endB - startB + 1) 1
  · have : allBlocks 100 102 = [100, 101, 102] := by decide
    rw [this]
    have h1 : chunkArray [100, 101, 102] 20 = [[100, 101, 102]] := by
      simp [chunkArray]
    rw [h1]
    simp
  · constructor <;>
    · simp only [mainScan]
      have hblocks : allBlocks 100 102 = [100, 101, 102] := by decide
      rw [hblocks]
      have h1 : chunkArray [100, 101, 102] 20 = [[100, 101, 102]] := by
        simp [chunkArray]
      rw [h1]
      simp [processBatches, scanBlocksInBatch, scanExtrinsicsFrom,
        scanExtrinsic, checkAsDerivative, deriveAccountCorrect,
        initialScanState, addUnique, bumpCount, Call.sect]

/-- Claim C10: an extrinsic without a signer, or a signed extrinsic whose
top-level call is outside the `utility` section, never reaches the matcher:
it is never reported and never affects the match counters, whatever calls
(including `asDerivative`) it may contain. -/
theorem scanExtrinsic_skips (hash256 : List Nat → List Nat) (bn idx : Nat)
    (ex : Extrinsic) (s : ScanState)
    (h : ex.signer = none ∨ ex.method.sect ≠ "utility") :
    (scanExtrinsic hash256 bn idx ex s).2 = false
    ∧ (scanExtrinsic hash256 bn idx ex s).1.counters = s.counters
    ∧ (scanExtrinsic hash256 bn idx ex s).1.records = s.records := by
  obtain ⟨sg, m⟩ := ex
  rcases h with h | h
  · simp only at h
    subst h
    simp [scanExtrinsic]
  · simp only at h
    cases sg with
    | none => simp [scanExtrinsic]
    | some sg => simp [scanExtrinsic, h]

theorem scanExtrinsic_skips_witness :
    ((scanExtrinsic (fun b => b) 9 0
        ⟨none, Call.mk "utility" "asDerivative"
          [Arg.num 5, Arg.callArg (Call.mk "system" "remark" [])]⟩
        initialScanState).2 = false
      ∧ (scanExtrinsic (fun b => b) 9 0
          ⟨none, Call.mk "utility" "asDerivative"
            [Arg.num 5, Arg.callArg (Call.mk "system" "remark" [])]⟩
          initialScanState).1.counters = initialScanState.counters
      ∧ (scanExtrinsic (fun b => b) 9 0
          ⟨none, Call.mk "utility" "asDerivative"
            [Arg.num 5, Arg.callArg (Call.mk "system" "remark" [])]⟩
          initialScanState).1.records = initialScanState.records) :=
  scanExtrinsic_skips (fun b => b) 9 0
    ⟨none, Call.mk "utility" "asDerivative"
      [Arg.num 5, Arg.callArg (Call.mk "system" "remark" [])]⟩
    initialScanState (Or.inl rfl)

theorem nested_depth_two_found_witness :
    ∃ d : List Nat,
      deriveAccountCorrect (fun _ => List.replicate 32 4) (List.replicate 32 3) 7
          = some d
      ∧ (scanExtrinsic (fun _ => List.replicate 32 4) 500 2
          ⟨some (List.replicate 32 3), Call.mk "utility" "batch"
            [Arg.seq ([Call.mk "system" "remark" []] ++ Call.mk "utility" "batchAll"
              [Arg.seq ([] ++ Call.mk "utility" "asDerivative"
                  (Arg.num 7 :: Arg.callArg (Call.mk "system" "remark" []) :: [])
                  :: [Call.mk "balances" "transferAll" []])]
              :: [])]⟩ initialScanState).2 = false
      ∧ (scanExtrinsic (fun _ => List.replicate 32 4) 500 2
          ⟨some (List.replicate 32 3), Call.mk "utility" "batch"
            [Arg.seq ([Call.mk "system" "remark" []] ++ Call.mk "utility" "batchAll"
              [Arg.seq ([] ++ Call.mk "utility" "asDerivative"
                  (Arg.num 7 :: Arg.callArg (Call.mk "system" "remark" []) :: [])
                  :: [Call.mk "balances" "transferAll" []])]
              :: [])]⟩ initialScanState).1.records
          = initialScanState.records ++
            [MatchRecord.mk 500 2 (List.replicate 32 3) 7
              ((fun _ => List.replicate 32 4)
                (derivationPrefixBytes ++ List.replicate 32 3 ++ [7 &&& 255]))
              ((Call.mk "system" "remark" []).sect ++ "."
                ++ (Call.mk "system" "remark" []).method)
              (Call.mk "system" "remark" []).args] :=
  nested_depth_two_found (fun _ => List.replicate 32 4) 500 2
    (List.replicate 32 3) initialScanState
    [Call.mk "system" "remark" []] [] [] [Call.mk "balances" "transferAll" []]
    7 (Call.mk "system" "remark" []) [] (by simp)
    (by decide) (by simp) (by simp) (by decide)

theorem scan_order_preservation_witness :
    0 < 20 ∧ (chunkArray [5, 6] 20).flatten = [5, 6] :=
  ⟨by decide, scan_order_preservation.1 20 [5, 6] (by decide)⟩

